import Mathlib

/-!
# Verification of the livestreaming signaling server

Shallow embedding of the socket.io signaling logic of the repository
(server code embedded at the end of `public/admin.js`): the handlers
`admin-join`, `student-join`, `offer`, `answer`, `ice-candidate`,
`admin-end-session` and `disconnect`, operating on

* a session store (Mongo collection `Session`, modelled as an association
  list from `unique_id` to the `active` flag),
* per-socket state (`socket.role`, `socket.unique_id`, the socket.io rooms
  the socket has joined), and
* room-based message delivery (`socket.to(room).emit`,
  `io.to(target).emit`), where every socket is implicitly a member of the
  room named by its own id.

Each store access sits behind an `await` in a `try/catch`; its possible
failure is modelled by an explicit `storeOk : Bool` parameter: when it is
`false` the handler takes the `catch` branch.
-/

namespace Livestream

/-- The value of `socket.role`: unset on a fresh socket, then `'admin'`
or `'student'` after a join. -/
inductive Role where
  | unset
  | admin
  | student
deriving DecidableEq, Repr

/-- Per-socket state: `socket.role`, `socket.unique_id` (the bound session
id, `none` for JS `undefined`/`null`), and the list of socket.io rooms the
socket has joined (besides the implicit room named by its own id). -/
structure Conn where
  role : Role := Role.unset
  uid : Option String := none
  rooms : List String := []
deriving DecidableEq, Repr

/-- Whole-server state: the session store (`unique_id ↦ active`) and the
connected sockets (`socket.id ↦ Conn`). -/
structure ServerState where
  store : List (String × Bool) := []
  conns : List (String × Conn) := []
deriving DecidableEq, Repr

/-- A signaling payload: the optional `to` field and the rest of the
message body (opaque to the server, which only spreads it). -/
structure Payload where
  tgt : Option String := none
  body : String := ""
deriving DecidableEq, Repr

/-- A message emitted by the server to some socket. -/
inductive Ev where
  | studentConnected (studentSocketId : String)
  | offer (fromId : String) (tgt : Option String) (body : String)
  | answer (fromId : String) (tgt : Option String) (body : String)
  | iceCandidate (fromId : String) (tgt : Option String) (body : String)
  | sessionEnded
  | studentDisconnected (studentSocketId : String)
deriving DecidableEq, Repr

/-- The acknowledgement sent through the handler callback:
`{ok: true, socketId?}` or `{ok: false, error}`. -/
inductive Ack where
  | ok (socketId : Option String)
  | err (msg : String)
deriving DecidableEq, Repr

/-- Result of one handler invocation: the new server state, the
acknowledgement, and the list of (receiver socket id, event) deliveries. -/
structure Result where
  state : ServerState
  ack : Ack
  emits : List (String × Ev)
deriving DecidableEq, Repr

/-- JS truthiness of an optional string: `undefined`/`null`/`""` are
falsy. -/
def truthy : Option String → Option String
  | none => none
  | some s => if s = "" then none else some s

/-- Store lookup (`Session.findOne({unique_id})`): the `active` flag of
the first record with the given id. -/
def lookupL : List (String × Bool) → String → Option Bool
  | [], _ => none
  | p :: rest, u => if p.1 = u then some p.2 else lookupL rest u

/-- `Session.findOneAndUpdate({unique_id}, {active: false})`: set the
`active` flag of the first matching record to `false`; no-op when the id
is absent. -/
def setInactive : List (String × Bool) → String → List (String × Bool)
  | [], _ => []
  | p :: rest, u => if p.1 = u then (p.1, false) :: rest else p :: setInactive rest u

/-- Socket lookup in the connection list. -/
def lookupConn : List (String × Conn) → String → Option Conn
  | [], _ => none
  | p :: rest, s => if p.1 = s then some p.2 else lookupConn rest s

/-- Replace a socket's state (append when absent). -/
def setConnL : List (String × Conn) → String → Conn → List (String × Conn)
  | [], s, c => [(s, c)]
  | p :: rest, s, c => if p.1 = s then (s, c) :: rest else p :: setConnL rest s c

/-- Remove a socket from the connection list (socket.io disconnect). -/
def removeConn : List (String × Conn) → String → List (String × Conn)
  | [], _ => []
  | p :: rest, s => if p.1 = s then removeConn rest s else p :: removeConn rest s

/-- Remove one room from a socket's room list (`socket.leave(room)`). -/
def removeRoom : List String → String → List String
  | [], _ => []
  | r :: rest, u => if r = u then removeRoom rest u else r :: removeRoom rest u

/-- Add a room to a socket's room list (`socket.join(room)`; joining a
room twice is a no-op). -/
def addRoom (rs : List String) (u : String) : List String :=
  if u ∈ rs then rs else u :: rs

/-- Every socket leaves the given room: the `admin-end-session` teardown
`io.in(room).fetchSockets()` followed by `peer.leave(room)` on each. -/
def leaveAll : List (String × Conn) → String → List (String × Conn)
  | [], _ => []
  | p :: rest, u =>
      (p.1, { p.2 with rooms := removeRoom p.2.rooms u }) :: leaveAll rest u

/-- Receivers of `socket.to(room).emit(...)`: every connected socket in
the room other than the sender. -/
def roomMembersExcept : List (String × Conn) → String → String → List String
  | [], _, _ => []
  | p :: rest, sid, u =>
      if p.1 ≠ sid ∧ u ∈ p.2.rooms then p.1 :: roomMembersExcept rest sid u
      else roomMembersExcept rest sid u

/-- Receivers of `io.to(t).emit(...)`: every socket in the room named `t`,
where each socket is implicitly a member of the room named by its own
id. -/
def roomTargets : List (String × Conn) → String → List String
  | [], _ => []
  | p :: rest, t =>
      if p.1 = t ∨ t ∈ p.2.rooms then p.1 :: roomTargets rest t
      else roomTargets rest t

/-- The socket's state as the handlers see it (a fresh socket has unset
role, no bound session and no joined rooms). -/
def getConn (st : ServerState) (sid : String) : Conn :=
  (lookupConn st.conns sid).getD {}

/-- Update one socket's state inside the server state. -/
def setConn (st : ServerState) (sid : String) (c : Conn) : ServerState :=
  { st with conns := setConnL st.conns sid c }

/-- A new socket connects (`io.on('connection', ...)`). -/
def connect (st : ServerState) (sid : String) : ServerState :=
  match lookupConn st.conns sid with
  | some _ => st
  | none => { st with conns := st.conns ++ [(sid, {})] }

/-- The HTTP `POST /api/session` endpoint: persists a fresh session
record. The id is produced by `randomUUID()` and the `Session` schema
(`models/Session.js`, not under `src/`) is modelled from the spec: the
`active` flag defaults to `true` on creation and generated ids are
globally unique, so creation never collides with an existing record
(guarded here by a store lookup). On store failure nothing is
persisted. -/
def createSession (st : ServerState) (u : String) (storeOk : Bool) : ServerState :=
  if storeOk then
    match lookupL st.store u with
    | some _ => st
    | none => { st with store := st.store ++ [(u, true)] }
  else st

/-- The `admin-join` handler: requires a truthy session id, looks the
session up with no filter on `active`, and on success joins the room and
binds the socket as `'admin'`. -/
def adminJoin (st : ServerState) (sid : String) (uid? : Option String)
    (storeOk : Bool) : Result :=
  match truthy uid? with
  | none => ⟨st, Ack.err "Missing session id.", []⟩
  | some u =>
    if storeOk then
      match lookupL st.store u with
      | none => ⟨st, Ack.err "Session not found.", []⟩
      | some _ =>
        let c := getConn st sid
        let c' : Conn := ⟨Role.admin, some u, addRoom c.rooms u⟩
        ⟨setConn st sid c', Ack.ok (some sid), []⟩
    else ⟨st, Ack.err "Unable to join session.", []⟩

/-- The `student-join` handler: requires a truthy session id, looks the
session up filtered to `active: true`, and on success joins the room,
binds the socket as `'student'` and notifies the other room members with
`student-connected`. -/
def studentJoin (st : ServerState) (sid : String) (uid? : Option String)
    (storeOk : Bool) : Result :=
  match truthy uid? with
  | none => ⟨st, Ack.err "Missing session id.", []⟩
  | some u =>
    if storeOk then
      match lookupL st.store u with
      | some true =>
        let c := getConn st sid
        let c' : Conn := ⟨Role.student, some u, addRoom c.rooms u⟩
        let st' := setConn st sid c'
        ⟨st', Ack.ok (some sid),
          (roomMembersExcept st'.conns sid u).map
            (fun r => (r, Ev.studentConnected sid))⟩
      | _ => ⟨st, Ack.err "Session not found or inactive.", []⟩
    else ⟨st, Ack.err "Unable to join session.", []⟩

/-- The `offer` handler: requires a truthy `to`, then forwards the payload
extended with `from = socket.id` via `io.to(to)`. -/
def offer (st : ServerState) (sid : String) (p : Payload) : Result :=
  match truthy p.tgt with
  | none => ⟨st, Ack.err "Missing target socket id.", []⟩
  | some t =>
    ⟨st, Ack.ok none,
      (roomTargets st.conns t).map (fun r => (r, Ev.offer sid p.tgt p.body))⟩

/-- The `answer` handler: identical to `offer` up to the event name. -/
def answer (st : ServerState) (sid : String) (p : Payload) : Result :=
  match truthy p.tgt with
  | none => ⟨st, Ack.err "Missing target socket id.", []⟩
  | some t =>
    ⟨st, Ack.ok none,
      (roomTargets st.conns t).map (fun r => (r, Ev.answer sid p.tgt p.body))⟩

/-- The `ice-candidate` handler: with a truthy `to` it forwards via
`io.to(to)`; otherwise, with a truthy bound `socket.unique_id`, it
broadcasts to the other members of that room; otherwise it fails. -/
def iceCandidate (st : ServerState) (sid : String) (p : Payload) : Result :=
  match truthy p.tgt with
  | some t =>
    ⟨st, Ack.ok none,
      (roomTargets st.conns t).map (fun r => (r, Ev.iceCandidate sid p.tgt p.body))⟩
  | none =>
    match truthy (getConn st sid).uid with
    | some u =>
      ⟨st, Ack.ok none,
        (roomMembersExcept st.conns sid u).map
          (fun r => (r, Ev.iceCandidate sid p.tgt p.body))⟩
    | none => ⟨st, Ack.err "No target specified.", []⟩

/-- The `admin-end-session` handler: authorized only when
`socket.role === 'admin'`, `socket.unique_id` is truthy and equals the
payload's `unique_id`. On success it sets the session inactive in the
store, emits `session-ended` to the other room members, makes every
socket leave the room and clears `socket.unique_id` (the role is left
untouched). A store failure takes the `catch` branch before any of the
teardown. -/
def adminEndSession (st : ServerState) (sid : String) (uid? : Option String)
    (storeOk : Bool) : Result :=
  let c := getConn st sid
  if c.role = Role.admin ∧ (truthy c.uid).isSome ∧ uid? = c.uid then
    match c.uid with
    | some u =>
      if storeOk then
        let st1 : ServerState := { st with store := setInactive st.store u }
        let ems := (roomMembersExcept st1.conns sid u).map
          (fun r => (r, Ev.sessionEnded))
        let st2 : ServerState := { st1 with conns := leaveAll st1.conns u }
        let st3 := setConn st2 sid { getConn st2 sid with uid := none }
        ⟨st3, Ack.ok none, ems⟩
      else ⟨st, Ack.err "Failed to end session.", []⟩
    | none => ⟨st, Ack.err "Not authorized.", []⟩
  else ⟨st, Ack.err "Not authorized.", []⟩

/-- The `disconnect` handler: a bound admin sets its session inactive and
(only when the store update succeeded) emits `session-ended` to the
remaining room members; a bound student emits `student-disconnected`.
Finally the socket is removed. The disconnect path has no callback, so
the `Ack` component is a dummy `ok`. -/
def handleDisconnect (st : ServerState) (sid : String) (storeOk : Bool) : Result :=
  let c := getConn st sid
  let stepA : ServerState × List (String × Ev) :=
    match truthy c.uid with
    | some u =>
      if c.role = Role.admin then
        if storeOk then
          ({ st with store := setInactive st.store u },
            (roomMembersExcept st.conns sid u).map (fun r => (r, Ev.sessionEnded)))
        else (st, [])
      else (st, [])
    | none => (st, [])
  let emsS : List (String × Ev) :=
    match truthy c.uid with
    | some u =>
      if c.role = Role.student then
        (roomMembersExcept stepA.1.conns sid u).map
          (fun r => (r, Ev.studentDisconnected sid))
      else []
    | none => []
  ⟨{ stepA.1 with conns := removeConn stepA.1.conns sid }, Ack.ok none,
    stepA.2 ++ emsS⟩

/-- One externally triggered step of the server. -/
inductive Step where
  | connect (sid : String)
  | createSession (u : String) (storeOk : Bool)
  | adminJoin (sid : String) (uid? : Option String) (storeOk : Bool)
  | studentJoin (sid : String) (uid? : Option String) (storeOk : Bool)
  | offer (sid : String) (p : Payload)
  | answer (sid : String) (p : Payload)
  | iceCandidate (sid : String) (p : Payload)
  | adminEndSession (sid : String) (uid? : Option String) (storeOk : Bool)
  | disconnect (sid : String) (storeOk : Bool)
deriving DecidableEq, Repr

/-- State transition of one step. -/
def applyStep (st : ServerState) : Step → ServerState
  | Step.connect sid => connect st sid
  | Step.createSession u storeOk => createSession st u storeOk
  | Step.adminJoin sid uid? storeOk => (adminJoin st sid uid? storeOk).state
  | Step.studentJoin sid uid? storeOk => (studentJoin st sid uid? storeOk).state
  | Step.offer sid p => (offer st sid p).state
  | Step.answer sid p => (answer st sid p).state
  | Step.iceCandidate sid p => (iceCandidate st sid p).state
  | Step.adminEndSession sid uid? storeOk => (adminEndSession st sid uid? storeOk).state
  | Step.disconnect sid storeOk => (handleDisconnect st sid storeOk).state

/-- State after a sequence of steps. -/
def applySteps (st : ServerState) (steps : List Step) : ServerState :=
  steps.foldl applyStep st

/-- The empty initial server state. -/
def initState : ServerState := {}

/-- A connection's observable binding: its role and bound session id
(an absent socket reads as unbound). -/
def bindingOf (st : ServerState) (sid : String) : Role × Option String :=
  ((getConn st sid).role, (getConn st sid).uid)

/-- The socket ids currently bound to a session with role `'admin'`. -/
def presentersOf (st : ServerState) (u : String) : List String :=
  (st.conns.filter (fun p => p.2.role = Role.admin ∧ p.2.uid = some u)).map Prod.fst

/-- No duplicate socket ids in the connection list (socket.io assigns
unique ids). -/
abbrev keysNodup (st : ServerState) : Prop :=
  (st.conns.map Prod.fst).Nodup

/-- No socket has joined a room named `t` (holds whenever `t` is a socket
id: joined rooms are session UUIDs, a namespace disjoint from socket
ids). -/
abbrev roomFree (st : ServerState) (t : String) : Prop :=
  ∀ pc ∈ st.conns, t ∉ pc.2.rooms

/-- The socket a step acts for (`none` for the HTTP creation endpoint,
which is not tied to a socket). -/
def stepActor : Step → Option String
  | Step.connect sid => some sid
  | Step.createSession _ _ => none
  | Step.adminJoin sid _ _ => some sid
  | Step.studentJoin sid _ _ => some sid
  | Step.offer sid _ => some sid
  | Step.answer sid _ => some sid
  | Step.iceCandidate sid _ => some sid
  | Step.adminEndSession sid _ _ => some sid
  | Step.disconnect sid _ => some sid

/-- The steps that can touch a connection's binding: the two joins,
`admin-end-session` and `disconnect`. -/
def isBindingStep : Step → Prop
  | Step.adminJoin _ _ _ => True
  | Step.studentJoin _ _ _ => True
  | Step.adminEndSession _ _ _ => True
  | Step.disconnect _ _ => True
  | _ => False

/-- A small concrete state used by the witnesses: one active session
`"A"` with a presenter `"p"` and a viewer `"v"` in its room. -/
def exSt : ServerState :=
  ⟨[("A", true)],
   [("p", ⟨Role.admin, some "A", ["A"]⟩),
    ("v", ⟨Role.student, some "A", ["A"]⟩)]⟩

/-- A concrete run: socket `"c1"` joins session `"A"` as a viewer while a
second session `"B"` also exists. -/
def c2Steps : List Step :=
  [Step.connect "c1", Step.createSession "A" true, Step.createSession "B" true,
   Step.studentJoin "c1" (some "A") true]

/-- A concrete run: sockets `"c1"` and `"c2"` both join session `"A"` as
presenters. -/
def c3Steps : List Step :=
  [Step.connect "c1", Step.connect "c2", Step.createSession "A" true,
   Step.adminJoin "c1" (some "A") true, Step.adminJoin "c2" (some "A") true]

/-! ## Store lemmas -/

theorem lookupL_setInactive_false {l : List (String × Bool)} {u u' : String}
    (h : lookupL l u = some false) :
    lookupL (setInactive l u') u = some false := by
  induction l with
  | nil => simpa using h
  | cons p rest ih =>
    simp only [lookupL, setInactive] at *
    by_cases h1 : p.1 = u'
    · by_cases h2 : p.1 = u <;> simp_all [lookupL]
    · by_cases h2 : p.1 = u <;> simp_all [lookupL]

theorem lookupL_setInactive_self {l : List (String × Bool)} {u : String}
    (h : (lookupL l u).isSome) :
    lookupL (setInactive l u) u = some false := by
  induction l with
  | nil => simp [lookupL] at h
  | cons p rest ih =>
    simp only [lookupL, setInactive] at *
    by_cases h1 : p.1 = u <;> simp_all [lookupL]

theorem lookupL_append_isSome {l m : List (String × Bool)} {u : String}
    (h : (lookupL l u).isSome) :
    lookupL (l ++ m) u = lookupL l u := by
  induction l with
  | nil => simp [lookupL] at h
  | cons p rest ih =>
    simp only [lookupL, List.cons_append] at *
    by_cases h1 : p.1 = u <;> simp_all

/-! ## The store component of each handler -/

theorem connect_store (st : ServerState) (sid : String) :
    (connect st sid).store = st.store := by
  unfold connect
  cases lookupConn st.conns sid <;> rfl

theorem adminJoin_store (st : ServerState) (sid : String) (uid? : Option String)
    (storeOk : Bool) :
    (adminJoin st sid uid? storeOk).state.store = st.store := by
  unfold adminJoin
  split
  · rfl
  · split
    · split <;> rfl
    · rfl

theorem studentJoin_store (st : ServerState) (sid : String) (uid? : Option String)
    (storeOk : Bool) :
    (studentJoin st sid uid? storeOk).state.store = st.store := by
  unfold studentJoin
  split
  · rfl
  · split
    · split <;> rfl
    · rfl

theorem offer_state (st : ServerState) (sid : String) (p : Payload) :
    (offer st sid p).state = st := by
  unfold offer
  cases truthy p.tgt <;> rfl

theorem answer_state (st : ServerState) (sid : String) (p : Payload) :
    (answer st sid p).state = st := by
  unfold answer
  cases truthy p.tgt <;> rfl

theorem iceCandidate_state (st : ServerState) (sid : String) (p : Payload) :
    (iceCandidate st sid p).state = st := by
  unfold iceCandidate
  cases truthy p.tgt with
  | some t => rfl
  | none => cases truthy (getConn st sid).uid <;> rfl

theorem adminEndSession_store_false {st : ServerState} {u : String} (sid : String)
    (uid? : Option String) (storeOk : Bool)
    (h : lookupL st.store u = some false) :
    lookupL (adminEndSession st sid uid? storeOk).state.store u = some false := by
  simp only [adminEndSession]
  split
  · split
    · split
      · exact lookupL_setInactive_false h
      · exact h
    · exact h
  · exact h

theorem handleDisconnect_store_false {st : ServerState} {u : String} (sid : String)
    (storeOk : Bool) (h : lookupL st.store u = some false) :
    lookupL (handleDisconnect st sid storeOk).state.store u = some false := by
  simp only [handleDisconnect]
  split
  · split
    · split
      · exact lookupL_setInactive_false h
      · exact h
    · exact h
  · exact h

theorem createSession_store_false {st : ServerState} {u : String} (u' : String)
    (storeOk : Bool) (h : lookupL st.store u = some false) :
    lookupL (createSession st u' storeOk).store u = some false := by
  simp only [createSession]
  split
  · split
    · exact h
    · show lookupL (st.store ++ [(u', true)]) u = some false
      rw [lookupL_append_isSome (by simp [h])]
      exact h
  · exact h

/-- No step of the server ever reactivates a deactivated session. -/
theorem store_false_applyStep {st : ServerState} {u : String} (s : Step)
    (h : lookupL st.store u = some false) :
    lookupL (applyStep st s).store u = some false := by
  cases s with
  | connect sid =>
    show lookupL (connect st sid).store u = some false
    rw [connect_store]; exact h
  | createSession u' storeOk => exact createSession_store_false u' storeOk h
  | adminJoin sid uid? storeOk =>
    show lookupL (adminJoin st sid uid? storeOk).state.store u = some false
    rw [adminJoin_store]; exact h
  | studentJoin sid uid? storeOk =>
    show lookupL (studentJoin st sid uid? storeOk).state.store u = some false
    rw [studentJoin_store]; exact h
  | offer sid p =>
    show lookupL (offer st sid p).state.store u = some false
    rw [offer_state]; exact h
  | answer sid p =>
    show lookupL (answer st sid p).state.store u = some false
    rw [answer_state]; exact h
  | iceCandidate sid p =>
    show lookupL (iceCandidate st sid p).state.store u = some false
    rw [iceCandidate_state]; exact h
  | adminEndSession sid uid? storeOk => exact adminEndSession_store_false sid uid? storeOk h
  | disconnect sid storeOk => exact handleDisconnect_store_false sid storeOk h

theorem store_false_applySteps {u : String} (steps : List Step) :
    ∀ {st : ServerState}, lookupL st.store u = some false →
      lookupL (applySteps st steps).store u = some false := by
  induction steps with
  | nil => intro st h; exact h
  | cons s rest ih =>
    intro st h
    exact ih (store_false_applyStep s h)

/-! ## Analysis of successful and failing handler runs -/

theorem adminEndSession_ok_of_ack {st : ServerState} {p u : String} {storeOk : Bool}
    (h : (adminEndSession st p (some u) storeOk).ack = Ack.ok none) :
    (getConn st p).role = Role.admin ∧ (getConn st p).uid = some u ∧ u ≠ "" ∧
      storeOk = true ∧
      (adminEndSession st p (some u) storeOk).state.store = setInactive st.store u := by
  unfold adminEndSession at h ⊢
  by_cases hcond : (getConn st p).role = Role.admin ∧
      (truthy (getConn st p).uid).isSome ∧ some u = (getConn st p).uid
  · obtain ⟨h1, h2, h3⟩ := hcond
    have huid : (getConn st p).uid = some u := h3.symm
    have hne : u ≠ "" := by
      intro he
      rw [huid, he] at h2
      simp [truthy] at h2
    rw [if_pos ⟨h1, h2, h3⟩] at h ⊢
    rw [huid] at h ⊢
    cases storeOk with
    | false => simp at h
    | true => exact ⟨h1, rfl, hne, rfl, rfl⟩
  · rw [if_neg hcond] at h
    simp at h

theorem studentJoin_inactive {st : ServerState} {u : String} (v : String)
    (hne : u ≠ "") (h : lookupL st.store u = some false) :
    (studentJoin st v (some u) true).ack = Ack.err "Session not found or inactive." := by
  unfold studentJoin
  simp [truthy, hne, h]

/-! ## Connection-lookup lemmas -/

theorem lookupConn_setConnL_ne {l : List (String × Conn)} {x sid : String} (c : Conn)
    (h : x ≠ sid) : lookupConn (setConnL l sid c) x = lookupConn l x := by
  induction l with
  | nil =>
    simp only [setConnL, lookupConn]
    rw [if_neg (fun hh => h hh.symm)]
  | cons p rest ih =>
    simp only [setConnL, lookupConn]
    by_cases h1 : p.1 = sid
    · subst h1
      simp only [if_pos rfl, lookupConn]
      rw [if_neg (fun hh => h hh.symm), if_neg (fun hh => h hh.symm)]
    · rw [if_neg h1]
      simp only [lookupConn]
      by_cases h2 : p.1 = x
      · rw [if_pos h2, if_pos h2]
      · rw [if_neg h2, if_neg h2, ih]

theorem lookupConn_setConnL_self {l : List (String × Conn)} {sid : String} (c : Conn) :
    lookupConn (setConnL l sid c) sid = some c := by
  induction l with
  | nil => simp [setConnL, lookupConn]
  | cons p rest ih =>
    simp only [setConnL]
    by_cases h1 : p.1 = sid
    · rw [if_pos h1]
      simp [lookupConn]
    · rw [if_neg h1]
      simp only [lookupConn]
      rw [if_neg h1]
      exact ih

theorem lookupConn_removeConn_ne {l : List (String × Conn)} {x sid : String}
    (h : x ≠ sid) : lookupConn (removeConn l sid) x = lookupConn l x := by
  induction l with
  | nil => rfl
  | cons p rest ih =>
    simp only [removeConn, lookupConn]
    by_cases h1 : p.1 = sid
    · rw [if_pos h1, ih, if_neg (by rw [h1]; exact fun hh => h hh.symm)]
    · rw [if_neg h1]
      simp only [lookupConn]
      by_cases h2 : p.1 = x
      · rw [if_pos h2, if_pos h2]
      · rw [if_neg h2, if_neg h2, ih]

theorem lookupConn_leaveAll (l : List (String × Conn)) (u x : String) :
    lookupConn (leaveAll l u) x =
      (lookupConn l x).map (fun k => ⟨k.role, k.uid, removeRoom k.rooms u⟩) := by
  induction l with
  | nil => rfl
  | cons p rest ih =>
    simp only [leaveAll, lookupConn]
    by_cases h1 : p.1 = x
    · rw [if_pos h1, if_pos h1]
      rfl
    · rw [if_neg h1, if_neg h1, ih]

theorem lookupConn_append_ne {l : List (String × Conn)} {x sid : String} (c : Conn)
    (h : x ≠ sid) : lookupConn (l ++ [(sid, c)]) x = lookupConn l x := by
  induction l with
  | nil =>
    simp only [List.nil_append, lookupConn]
    rw [if_neg (fun hh => h hh.symm)]
  | cons p rest ih =>
    simp only [List.cons_append, lookupConn, List.append_eq]
    by_cases h1 : p.1 = x
    · rw [if_pos h1, if_pos h1]
    · rw [if_neg h1, if_neg h1, ih]

theorem lookupConn_append_none {l : List (String × Conn)} {sid : String} (c : Conn)
    (h : lookupConn l sid = none) : lookupConn (l ++ [(sid, c)]) sid = some c := by
  induction l with
  | nil => simp [lookupConn]
  | cons p rest ih =>
    simp only [lookupConn] at h
    simp only [List.cons_append, lookupConn, List.append_eq]
    by_cases h1 : p.1 = sid
    · rw [if_pos h1] at h
      exact absurd h (by simp)
    · rw [if_neg h1] at h
      rw [if_neg h1, ih h]

/-- C1: once `admin-end-session` has succeeded for a session id, every
subsequent viewer join (`student-join`) with that id fails with the
NotFound error `"Session not found or inactive."`, whatever other steps
happen in between: the viewer join looks the session up filtered to
`active = true`, a successful end-session sets the flag to `false`, and
no step of the server ever sets it back to `true`. -/
theorem C1_endSession_blocks_viewerJoin (st : ServerState) (p u : String)
    (hin : (lookupL st.store u).isSome)
    (hsucc : (adminEndSession st p (some u) true).ack = Ack.ok none)
    (steps : List Step) (v : String) :
    (studentJoin (applySteps (adminEndSession st p (some u) true).state steps)
        v (some u) true).ack = Ack.err "Session not found or inactive." := by
  obtain ⟨-, -, hne, -, hstore⟩ := adminEndSession_ok_of_ack hsucc
  have h0 : lookupL (adminEndSession st p (some u) true).state.store u = some false := by
    rw [hstore]
    exact lookupL_setInactive_self hin
  exact studentJoin_inactive v hne (store_false_applySteps steps h0)

/-- Witness for C1: the presenter of the concrete state `exSt` ends
session `"A"`, a fresh socket `"w"` connects, and its viewer join is
refused. -/
theorem C1_endSession_blocks_viewerJoin_witness :
    (lookupL exSt.store "A").isSome ∧
    (adminEndSession exSt "p" (some "A") true).ack = Ack.ok none ∧
    (studentJoin (applySteps (adminEndSession exSt "p" (some "A") true).state
        [Step.connect "w"]) "w" (some "A") true).ack
      = Ack.err "Session not found or inactive." :=
  ⟨by decide, by decide,
    C1_endSession_blocks_viewerJoin exSt "p" "A" (by decide) (by decide)
      [Step.connect "w"] "w"⟩

theorem handleDisconnect_conns (st : ServerState) (sid : String) (storeOk : Bool) :
    (handleDisconnect st sid storeOk).state.conns = removeConn st.conns sid := by
  simp only [handleDisconnect]
  split
  · split
    · split <;> rfl
    · rfl
  · rfl

/-- C2 counterexample: the claim that a connection's (role, session id)
binding is immutable until disconnect or session end is false. In the
concrete run `c2Steps`, socket `"c1"` is bound as (viewer, `"A"`), and a
later `admin-join` for session `"B"` succeeds and rebinds it to
(presenter, `"B"`) — no disconnect and no session end intervened. -/
theorem C2_cex_rebind :
    bindingOf (applySteps initState c2Steps) "c1" = (Role.student, some "A") ∧
    (adminJoin (applySteps initState c2Steps) "c1" (some "B") true).ack
      = Ack.ok (some "c1") ∧
    bindingOf (adminJoin (applySteps initState c2Steps) "c1" (some "B") true).state "c1"
      = (Role.admin, some "B") := by
  decide

/-- C2 amended: a connection's (role, session id) binding can change only
through a step performed by that very connection, and only through one of
the binding operations — a join (`admin-join` / `student-join`, which may
rebind it to a different session or role, since neither join checks for
an existing binding), `admin-end-session`, or `disconnect`. No step by
another connection and no relay step ever changes it. -/
theorem C2_binding_changed_only_by_own_bind_step (st : ServerState) (s : Step)
    (c : String) (h : bindingOf (applyStep st s) c ≠ bindingOf st c) :
    isBindingStep s ∧ stepActor s = some c := by
  cases s with
  | connect sid =>
    exfalso
    apply h
    show bindingOf (connect st sid) c = bindingOf st c
    unfold connect
    cases hl : lookupConn st.conns sid with
    | some k => rfl
    | none =>
      show bindingOf ⟨st.store, st.conns ++ [(sid, {})]⟩ c = bindingOf st c
      unfold bindingOf getConn
      by_cases hc : c = sid
      · subst hc
        rw [lookupConn_append_none _ hl, hl]
        rfl
      · rw [lookupConn_append_ne _ hc]
  | createSession u storeOk =>
    exfalso
    apply h
    show bindingOf (createSession st u storeOk) c = bindingOf st c
    unfold createSession
    split
    · split <;> rfl
    · rfl
  | offer sid p =>
    exfalso
    apply h
    show bindingOf (offer st sid p).state c = bindingOf st c
    rw [offer_state]
  | answer sid p =>
    exfalso
    apply h
    show bindingOf (answer st sid p).state c = bindingOf st c
    rw [answer_state]
  | iceCandidate sid p =>
    exfalso
    apply h
    show bindingOf (iceCandidate st sid p).state c = bindingOf st c
    rw [iceCandidate_state]
  | adminJoin sid uid? storeOk =>
    by_cases hc : sid = c
    · exact ⟨trivial, by subst hc; rfl⟩
    · exfalso
      apply h
      show bindingOf (adminJoin st sid uid? storeOk).state c = bindingOf st c
      unfold adminJoin
      split
      · rfl
      · split
        · split
          · rfl
          · unfold bindingOf getConn setConn
            rw [lookupConn_setConnL_ne _ (fun hh => hc hh.symm)]
        · rfl
  | studentJoin sid uid? storeOk =>
    by_cases hc : sid = c
    · exact ⟨trivial, by subst hc; rfl⟩
    · exfalso
      apply h
      show bindingOf (studentJoin st sid uid? storeOk).state c = bindingOf st c
      unfold studentJoin
      split
      · rfl
      · split
        · split
          · unfold bindingOf getConn setConn
            rw [lookupConn_setConnL_ne _ (fun hh => hc hh.symm)]
          · rfl
        · rfl
  | adminEndSession sid uid? storeOk =>
    by_cases hc : sid = c
    · exact ⟨trivial, by subst hc; rfl⟩
    · exfalso
      apply h
      show bindingOf (adminEndSession st sid uid? storeOk).state c = bindingOf st c
      simp only [adminEndSession]
      split
      · split
        · split
          · unfold bindingOf getConn setConn
            rw [lookupConn_setConnL_ne _ (fun hh => hc hh.symm)]
            rw [lookupConn_leaveAll]
            cases lookupConn st.conns c <;> rfl
          · rfl
        · rfl
      · rfl
  | disconnect sid storeOk =>
    by_cases hc : sid = c
    · exact ⟨trivial, by subst hc; rfl⟩
    · exfalso
      apply h
      show bindingOf (handleDisconnect st sid storeOk).state c = bindingOf st c
      unfold bindingOf getConn
      rw [handleDisconnect_conns, lookupConn_removeConn_ne (fun hh => hc hh.symm)]

/-- Witness for the amended C2 at a concrete input: in `exSt` the viewer
`"v"` rebinds itself to session `"B"`; the changing step is indeed a
binding step performed by `"v"` itself. -/
theorem C2_binding_changed_only_by_own_bind_step_witness :
    bindingOf (applyStep ⟨[("A", true), ("B", true)], exSt.conns⟩
        (Step.adminJoin "v" (some "B") true)) "v"
      ≠ bindingOf ⟨[("A", true), ("B", true)], exSt.conns⟩ "v" ∧
    (isBindingStep (Step.adminJoin "v" (some "B") true) ∧
      stepActor (Step.adminJoin "v" (some "B") true) = some "v") :=
  ⟨by decide,
    C2_binding_changed_only_by_own_bind_step ⟨[("A", true), ("B", true)], exSt.conns⟩
      (Step.adminJoin "v" (some "B") true) "v" (by decide)⟩

/-- C3 counterexample: the claimed invariant "at most one connection is
bound to a session id with role presenter" is violated in a reachable
state: after the concrete run `c3Steps` (both `admin-join` requests
acknowledged ok), both `"c1"` and `"c2"` are bound to session `"A"` as
presenters. -/
theorem C3_cex_two_presenters :
    (adminJoin (applySteps initState (c3Steps.take 4)) "c2" (some "A") true).ack
      = Ack.ok (some "c2") ∧
    presentersOf (applySteps initState c3Steps) "A" = ["c1", "c2"] := by
  decide

/-- C3 amended: `admin-join` performs no presenter-uniqueness check — it
succeeds whenever the session id exists in the store, regardless of any
connection already bound to that session (so several presenters can be
bound at once); `student-join` likewise succeeds for any number of
viewers whenever the session is active. -/
theorem C3_join_ignores_existing_bindings (st : ServerState) (u c : String)
    (hne : u ≠ "") :
    ((lookupL st.store u).isSome →
      (adminJoin st c (some u) true).ack = Ack.ok (some c)) ∧
    (lookupL st.store u = some true →
      (studentJoin st c (some u) true).ack = Ack.ok (some c)) := by
  constructor
  · intro h
    obtain ⟨b, hb⟩ := Option.isSome_iff_exists.mp h
    unfold adminJoin
    simp [truthy, hne, hb]
  · intro h
    unfold studentJoin
    simp [truthy, hne, h]

/-- Witness for the amended C3: in `exSt`, which already has the
presenter `"p"` bound to session `"A"`, a second connection `"c9"` can
still join `"A"` as presenter, and a viewer can still join. -/
theorem C3_join_ignores_existing_bindings_witness :
    ("A" : String) ≠ "" ∧
    (((lookupL exSt.store "A").isSome →
        (adminJoin exSt "c9" (some "A") true).ack = Ack.ok (some "c9")) ∧
      (lookupL exSt.store "A" = some true →
        (studentJoin exSt "c9" (some "A") true).ack = Ack.ok (some "c9"))) :=
  ⟨by decide, C3_join_ignores_existing_bindings exSt "A" "c9" (by decide)⟩

/-- C4: when the persistence update inside `admin-end-session` fails, the
handler reports the StoreError `"Failed to end session."` and performs no
teardown: the whole server state (store, bindings, room memberships) is
unchanged and no `session-ended` notification is emitted, so the
presenter may retry. -/
theorem C4_endSession_storeError_no_teardown (st : ServerState) (p u : String)
    (hrole : (getConn st p).role = Role.admin)
    (huid : (getConn st p).uid = some u) (hne : u ≠ "") :
    adminEndSession st p (some u) false =
      ⟨st, Ack.err "Failed to end session.", []⟩ := by
  simp only [adminEndSession]
  rw [if_pos ⟨hrole, by rw [huid]; simp [truthy, hne], huid.symm⟩]
  rw [huid]
  rfl

/-- Witness for C4: in `exSt`, the presenter `"p"` is bound to `"A"`, and
ending it with a failing store changes nothing and emits nothing. -/
theorem C4_endSession_storeError_no_teardown_witness :
    (getConn exSt "p").role = Role.admin ∧
    (getConn exSt "p").uid = some "A" ∧
    ("A" : String) ≠ "" ∧
    adminEndSession exSt "p" (some "A") false =
      ⟨exSt, Ack.err "Failed to end session.", []⟩ :=
  ⟨by decide, by decide, by decide,
    C4_endSession_storeError_no_teardown exSt "p" "A" (by decide) (by decide) (by decide)⟩

/-- C8: `admin-end-session` fails with `"Not authorized."` for every
requesting connection that is not currently bound as presenter (`'admin'`)
to exactly the requested session id, and on that failure the state is
completely unchanged (session still active, bindings and rooms intact)
and nothing is emitted. -/
theorem C8_endSession_unauthorized (st : ServerState) (c u : String) (storeOk : Bool)
    (h : ¬((getConn st c).role = Role.admin ∧ (getConn st c).uid = some u ∧ u ≠ "")) :
    adminEndSession st c (some u) storeOk = ⟨st, Ack.err "Not authorized.", []⟩ := by
  simp only [adminEndSession]
  by_cases hcond : (getConn st c).role = Role.admin ∧
      ((truthy (getConn st c).uid).isSome = true) ∧
      (some u : Option String) = (getConn st c).uid
  · exfalso
    apply h
    obtain ⟨h1, h2, h3⟩ := hcond
    have huid : (getConn st c).uid = some u := h3.symm
    refine ⟨h1, huid, ?_⟩
    intro he
    rw [huid, he] at h2
    simp [truthy] at h2
  · rw [if_neg hcond]

/-- Witness for C8: the viewer `"v"` of `exSt` tries to end session
`"A"` and is refused with the state untouched. -/
theorem C8_endSession_unauthorized_witness :
    ¬((getConn exSt "v").role = Role.admin ∧
        (getConn exSt "v").uid = some "A" ∧ ("A" : String) ≠ "") ∧
    adminEndSession exSt "v" (some "A") true =
      ⟨exSt, Ack.err "Not authorized.", []⟩ :=
  ⟨by decide, C8_endSession_unauthorized exSt "v" "A" true (by decide)⟩

/-! ## Room-membership lemmas -/

theorem roomMembersExcept_sublist (l : List (String × Conn)) (sid u : String) :
    List.Sublist (roomMembersExcept l sid u) (l.map Prod.fst) := by
  induction l with
  | nil => simp [roomMembersExcept]
  | cons p rest ih =>
    simp only [roomMembersExcept, List.map_cons]
    split
    · exact ih.cons₂ p.1
    · exact ih.cons p.1

theorem mem_roomMembersExcept {l : List (String × Conn)} {sid u c : String}
    (hnd : (l.map Prod.fst).Nodup) :
    c ∈ roomMembersExcept l sid u ↔
      c ≠ sid ∧ ∃ k, lookupConn l c = some k ∧ u ∈ k.rooms := by
  induction l with
  | nil => simp [roomMembersExcept, lookupConn]
  | cons p rest ih =>
    simp only [List.map_cons, List.nodup_cons] at hnd
    obtain ⟨hp, hrest⟩ := hnd
    simp only [roomMembersExcept, lookupConn]
    by_cases hcp : p.1 = c
    · subst hcp
      split
      · rename_i hcond
        simp only [if_pos rfl]
        constructor
        · intro _
          exact ⟨hcond.1, ⟨p.2, rfl, hcond.2⟩⟩
        · intro _
          exact List.mem_cons_self _ _
      · rename_i hcond
        simp only [if_pos rfl]
        constructor
        · intro hm
          exact absurd ((roomMembersExcept_sublist rest sid u).subset hm) hp
        · rintro ⟨hs, k, hk, hu⟩
          injection hk with hk
          subst hk
          exact absurd ⟨hs, hu⟩ hcond
    · rw [if_neg hcp]
      split
      · rw [List.mem_cons, ih hrest]
        constructor
        · intro h
          rcases h with h | h
          · exact absurd h.symm hcp
          · exact h
        · intro h
          exact Or.inr h
      · exact ih hrest

theorem roomMembersExcept_eq_nil {l : List (String × Conn)} {u : String} (sid : String)
    (h : ∀ pc ∈ l, u ∉ pc.2.rooms) : roomMembersExcept l sid u = [] := by
  induction l with
  | nil => rfl
  | cons p rest ih =>
    simp only [roomMembersExcept]
    rw [if_neg (fun hc => h p (List.mem_cons_self _ _) hc.2)]
    exact ih (fun pc hpc => h pc (List.mem_cons_of_mem _ hpc))

theorem lookupConn_none_keys {l : List (String × Conn)} {t : String}
    (hl : lookupConn l t = none) : ∀ pc ∈ l, pc.1 ≠ t := by
  induction l with
  | nil => intro pc hpc; simp at hpc
  | cons p rest ih =>
    simp only [lookupConn] at hl
    by_cases h1 : p.1 = t
    · rw [if_pos h1] at hl
      exact absurd hl (by simp)
    · rw [if_neg h1] at hl
      intro pc hpc
      rcases List.mem_cons.mp hpc with h | h
      · subst h; exact h1
      · exact ih hl pc h

theorem roomTargets_eq_nil {l : List (String × Conn)} {t : String}
    (h : ∀ pc ∈ l, pc.1 ≠ t ∧ t ∉ pc.2.rooms) : roomTargets l t = [] := by
  induction l with
  | nil => rfl
  | cons p rest ih =>
    simp only [roomTargets]
    rw [if_neg (fun hc =>
      hc.elim (h p (List.mem_cons_self _ _)).1 (h p (List.mem_cons_self _ _)).2)]
    exact ih (fun pc hpc => h pc (List.mem_cons_of_mem _ hpc))

theorem roomTargets_of_lookup_none {l : List (String × Conn)} {t : String}
    (hl : lookupConn l t = none) (hfree : ∀ pc ∈ l, t ∉ pc.2.rooms) :
    roomTargets l t = [] :=
  roomTargets_eq_nil (fun pc hpc => ⟨lookupConn_none_keys hl pc hpc, hfree pc hpc⟩)

theorem roomTargets_single {l : List (String × Conn)} {t : String} {k : Conn}
    (hnd : (l.map Prod.fst).Nodup) (hl : lookupConn l t = some k)
    (hfree : ∀ pc ∈ l, t ∉ pc.2.rooms) : roomTargets l t = [t] := by
  induction l with
  | nil => simp [lookupConn] at hl
  | cons p rest ih =>
    simp only [List.map_cons, List.nodup_cons] at hnd
    obtain ⟨hp, hrest⟩ := hnd
    simp only [lookupConn] at hl
    simp only [roomTargets]
    by_cases hpt : p.1 = t
    · rw [if_pos (Or.inl hpt), hpt]
      have hnil : roomTargets rest t = [] := by
        apply roomTargets_eq_nil
        intro pc hpc
        refine ⟨?_, hfree pc (List.mem_cons_of_mem _ hpc)⟩
        intro he
        apply hp
        rw [hpt, ← he]
        exact List.mem_map_of_mem Prod.fst hpc
      rw [hnil]
    · have hcond : ¬(p.1 = t ∨ t ∈ p.2.rooms) := by
        intro hc
        exact hc.elim hpt (hfree p (List.mem_cons_self _ _))
      rw [if_neg hcond]
      rw [if_neg hpt] at hl
      exact ih hrest hl (fun pc hpc => hfree pc (List.mem_cons_of_mem _ hpc))

theorem not_mem_removeRoom (rs : List String) (u : String) : u ∉ removeRoom rs u := by
  induction rs with
  | nil => simp [removeRoom]
  | cons r rest ih =>
    simp only [removeRoom]
    by_cases h1 : r = u
    · rw [if_pos h1]; exact ih
    · rw [if_neg h1]
      intro hm
      rcases List.mem_cons.mp hm with h | h
      · exact h1 h.symm
      · exact ih h

theorem mem_leaveAll {l : List (String × Conn)} {u : String} :
    ∀ pc ∈ leaveAll l u, u ∉ pc.2.rooms := by
  induction l with
  | nil => intro pc hpc; simp [leaveAll] at hpc
  | cons p rest ih =>
    intro pc hpc
    simp only [leaveAll] at hpc
    rcases List.mem_cons.mp hpc with h | h
    · rw [h]
      exact not_mem_removeRoom p.2.rooms u
    · exact ih pc h

theorem mem_setConnL {l : List (String × Conn)} {sid : String} {c : Conn} :
    ∀ pc ∈ setConnL l sid c, pc ∈ l ∨ pc.2 = c := by
  induction l with
  | nil =>
    intro pc hpc
    simp only [setConnL] at hpc
    rcases List.mem_cons.mp hpc with h | h
    · right; rw [h]
    · simp at h
  | cons p rest ih =>
    intro pc hpc
    simp only [setConnL] at hpc
    by_cases h1 : p.1 = sid
    · rw [if_pos h1] at hpc
      rcases List.mem_cons.mp hpc with h | h
      · right; rw [h]
      · left; exact List.mem_cons_of_mem _ h
    · rw [if_neg h1] at hpc
      rcases List.mem_cons.mp hpc with h | h
      · left; rw [h]; exact List.mem_cons_self _ _
      · rcases ih pc h with h2 | h2
        · left; exact List.mem_cons_of_mem _ h2
        · right; exact h2

/-! ## Relay-handler reductions -/

theorem offer_some_tgt (st : ServerState) (s t body : String) (hne : t ≠ "") :
    offer st s ⟨some t, body⟩ =
      ⟨st, Ack.ok none,
        (roomTargets st.conns t).map (fun r => (r, Ev.offer s (some t) body))⟩ := by
  unfold offer
  have htr : truthy (Payload.mk (some t) body).tgt = some t := by simp [truthy, hne]
  rw [htr]

theorem answer_some_tgt (st : ServerState) (s t body : String) (hne : t ≠ "") :
    answer st s ⟨some t, body⟩ =
      ⟨st, Ack.ok none,
        (roomTargets st.conns t).map (fun r => (r, Ev.answer s (some t) body))⟩ := by
  unfold answer
  have htr : truthy (Payload.mk (some t) body).tgt = some t := by simp [truthy, hne]
  rw [htr]

theorem iceCandidate_no_tgt (st : ServerState) (sid body : String) :
    iceCandidate st sid ⟨none, body⟩ =
      match truthy (getConn st sid).uid with
      | some u =>
        ⟨st, Ack.ok none,
          (roomMembersExcept st.conns sid u).map
            (fun r => (r, Ev.iceCandidate sid none body))⟩
      | none => ⟨st, Ack.err "No target specified.", []⟩ := rfl

/-- C5 counterexample: the claim that a presenter disconnect always
notifies every remaining room member and deactivates the session is
false when the best-effort store update fails: in `exSt` the presenter
`"p"` is bound to session `"A"` with the viewer `"v"` in the room, yet a
disconnect whose store update fails emits nothing and leaves the session
active. -/
theorem C5_cex_store_failure :
    (getConn exSt "p").role = Role.admin ∧
    (getConn exSt "p").uid = some "A" ∧
    "v" ∈ roomMembersExcept exSt.conns "p" "A" ∧
    (handleDisconnect exSt "p" false).emits = [] ∧
    lookupL (handleDisconnect exSt "p" false).state.store "A" = some true := by
  decide

/-- C5 amended: when a connection bound as presenter to session `u`
disconnects and the best-effort store update succeeds, the session's
persisted active flag becomes `false` and the emitted messages are
exactly one `session-ended` to each other connection currently in room
`u` (each exactly once, nobody else); when the store update fails, the
error is only logged: nothing is emitted and the flag is unchanged. -/
theorem C5_presenter_disconnect (st : ServerState) (p u : String)
    (hnd : keysNodup st) (hrole : (getConn st p).role = Role.admin)
    (huid : (getConn st p).uid = some u) (hne : u ≠ "")
    (hin : (lookupL st.store u).isSome) :
    lookupL (handleDisconnect st p true).state.store u = some false ∧
    (handleDisconnect st p true).emits =
      (roomMembersExcept st.conns p u).map (fun c => (c, Ev.sessionEnded)) ∧
    (roomMembersExcept st.conns p u).Nodup ∧
    (∀ c : String, c ∈ roomMembersExcept st.conns p u ↔
      c ≠ p ∧ ∃ k, lookupConn st.conns c = some k ∧ u ∈ k.rooms) ∧
    (handleDisconnect st p false).emits = [] ∧
    (handleDisconnect st p false).state.store = st.store := by
  have htr : truthy (getConn st p).uid = some u := by
    rw [huid]; simp [truthy, hne]
  have hr : handleDisconnect st p true =
      ⟨⟨setInactive st.store u, removeConn st.conns p⟩, Ack.ok none,
        (roomMembersExcept st.conns p u).map (fun r => (r, Ev.sessionEnded))⟩ := by
    simp only [handleDisconnect]
    rw [htr, hrole]
    simp
  have hrf : handleDisconnect st p false =
      ⟨⟨st.store, removeConn st.conns p⟩, Ack.ok none, []⟩ := by
    simp only [handleDisconnect]
    rw [htr, hrole]
    simp
  refine ⟨?_, ?_, ?_, ?_, ?_, ?_⟩
  · rw [hr]
    exact lookupL_setInactive_self hin
  · rw [hr]
  · exact List.Nodup.sublist (roomMembersExcept_sublist st.conns p u) hnd
  · intro c
    exact mem_roomMembersExcept hnd
  · rw [hrf]
  · rw [hrf]

/-- Witness for the amended C5 in the concrete state `exSt`: presenter
`"p"` disconnects; the viewer `"v"` is notified exactly once and session
`"A"` is deactivated. -/
theorem C5_presenter_disconnect_witness :
    keysNodup exSt ∧
    (getConn exSt "p").role = Role.admin ∧
    (getConn exSt "p").uid = some "A" ∧
    (lookupL exSt.store "A").isSome ∧
    (lookupL (handleDisconnect exSt "p" true).state.store "A" = some false ∧
      (handleDisconnect exSt "p" true).emits =
        (roomMembersExcept exSt.conns "p" "A").map (fun c => (c, Ev.sessionEnded)) ∧
      (roomMembersExcept exSt.conns "p" "A").Nodup ∧
      (∀ c : String, c ∈ roomMembersExcept exSt.conns "p" "A" ↔
        c ≠ "p" ∧ ∃ k, lookupConn exSt.conns c = some k ∧ "A" ∈ k.rooms) ∧
      (handleDisconnect exSt "p" false).emits = [] ∧
      (handleDisconnect exSt "p" false).state.store = exSt.store) :=
  ⟨by decide, by decide, by decide, by decide,
    C5_presenter_disconnect exSt "p" "A" (by decide) (by decide) (by decide)
      (by decide) (by decide)⟩

/-- C6: an offer or answer relay fails with the MissingTarget error
exactly when no target id is supplied; with a target id naming a live
connection, the body stamped with `from` = the sender's id is delivered
to that connection and to no other; and with a target id naming no live
connection the request is still acknowledged ok with no delivery at all.
(The hypothesis `roomFree st t` records that the target id does not
double as a joined room name — joined rooms are session UUIDs, socket
ids are a disjoint namespace.) -/
theorem C6_directed_relay (st : ServerState) (s t body : String)
    (hnd : keysNodup st) (hfree : roomFree st t) (hne : t ≠ "") :
    (offer st s ⟨none, body⟩ = ⟨st, Ack.err "Missing target socket id.", []⟩) ∧
    (answer st s ⟨none, body⟩ = ⟨st, Ack.err "Missing target socket id.", []⟩) ∧
    (∀ k, lookupConn st.conns t = some k →
      offer st s ⟨some t, body⟩ =
        ⟨st, Ack.ok none, [(t, Ev.offer s (some t) body)]⟩ ∧
      answer st s ⟨some t, body⟩ =
        ⟨st, Ack.ok none, [(t, Ev.answer s (some t) body)]⟩) ∧
    (lookupConn st.conns t = none →
      offer st s ⟨some t, body⟩ = ⟨st, Ack.ok none, []⟩ ∧
      answer st s ⟨some t, body⟩ = ⟨st, Ack.ok none, []⟩) := by
  refine ⟨rfl, rfl, ?_, ?_⟩
  · intro k hk
    constructor
    · rw [offer_some_tgt st s t body hne, roomTargets_single hnd hk hfree]
      rfl
    · rw [answer_some_tgt st s t body hne, roomTargets_single hnd hk hfree]
      rfl
  · intro hk
    constructor
    · rw [offer_some_tgt st s t body hne, roomTargets_of_lookup_none hk hfree]
      rfl
    · rw [answer_some_tgt st s t body hne, roomTargets_of_lookup_none hk hfree]
      rfl

/-- Witness for C6: in `exSt`, targeting the live viewer `"v"` delivers
only to `"v"`; the missing-target and dead-target cases also evaluate as
stated. -/
theorem C6_directed_relay_witness :
    keysNodup exSt ∧ roomFree exSt "v" ∧ ("v" : String) ≠ "" ∧
    ((offer exSt "p" ⟨none, "b"⟩ = ⟨exSt, Ack.err "Missing target socket id.", []⟩) ∧
      (answer exSt "p" ⟨none, "b"⟩ = ⟨exSt, Ack.err "Missing target socket id.", []⟩) ∧
      (∀ k, lookupConn exSt.conns "v" = some k →
        offer exSt "p" ⟨some "v", "b"⟩ =
          ⟨exSt, Ack.ok none, [("v", Ev.offer "p" (some "v") "b")]⟩ ∧
        answer exSt "p" ⟨some "v", "b"⟩ =
          ⟨exSt, Ack.ok none, [("v", Ev.answer "p" (some "v") "b")]⟩) ∧
      (lookupConn exSt.conns "v" = none →
        offer exSt "p" ⟨some "v", "b"⟩ = ⟨exSt, Ack.ok none, []⟩ ∧
        answer exSt "p" ⟨some "v", "b"⟩ = ⟨exSt, Ack.ok none, []⟩)) :=
  ⟨by decide, by decide, by decide,
    C6_directed_relay exSt "p" "v" "b" (by decide) (by decide) (by decide)⟩

/-- C9: directed offer and answer forwarding performs no check on the
sender's role or binding: for every sender id `s` — including one bound
to no session or to a different session — an offer or answer carrying a
live target connection id is delivered to that target stamped with
`from = s` and acknowledged ok. (No hypothesis whatsoever constrains
`s`.) -/
theorem C9_relay_no_sender_check (st : ServerState) (s t body : String) (k : Conn)
    (hnd : keysNodup st) (hfree : roomFree st t) (hne : t ≠ "")
    (hk : lookupConn st.conns t = some k) :
    offer st s ⟨some t, body⟩ =
      ⟨st, Ack.ok none, [(t, Ev.offer s (some t) body)]⟩ ∧
    answer st s ⟨some t, body⟩ =
      ⟨st, Ack.ok none, [(t, Ev.answer s (some t) body)]⟩ := by
  constructor
  · rw [offer_some_tgt st s t body hne, roomTargets_single hnd hk hfree]
    rfl
  · rw [answer_some_tgt st s t body hne, roomTargets_single hnd hk hfree]
    rfl

/-- Witness for C9: the completely unbound socket id `"z"` (not even
connected in `exSt`) successfully relays an offer and an answer to the
presenter `"p"`. -/
theorem C9_relay_no_sender_check_witness :
    keysNodup exSt ∧ roomFree exSt "p" ∧ ("p" : String) ≠ "" ∧
    lookupConn exSt.conns "p" = some ⟨Role.admin, some "A", ["A"]⟩ ∧
    (offer exSt "z" ⟨some "p", "b"⟩ =
        ⟨exSt, Ack.ok none, [("p", Ev.offer "z" (some "p") "b")]⟩ ∧
      answer exSt "z" ⟨some "p", "b"⟩ =
        ⟨exSt, Ack.ok none, [("p", Ev.answer "z" (some "p") "b")]⟩) :=
  ⟨by decide, by decide, by decide, by decide,
    C9_relay_no_sender_check exSt "z" "p" "b" ⟨Role.admin, some "A", ["A"]⟩
      (by decide) (by decide) (by decide) (by decide)⟩

/-- C7: a targetless ice-candidate from a sender bound to session `u` is
acknowledged ok and the candidate stamped with `from` = the sender's id
is delivered to exactly the other connections currently in room `u` and
to no connection outside it (the delivery list is the room membership
minus the sender, characterized by the lookup); a sender with no bound
session gets the Unbound error `"No target specified."`. -/
theorem C7_ice_room_broadcast (st : ServerState) (v u body : String)
    (hnd : keysNodup st) :
    ((getConn st v).uid = some u → u ≠ "" →
      iceCandidate st v ⟨none, body⟩ =
        ⟨st, Ack.ok none,
          (roomMembersExcept st.conns v u).map
            (fun c => (c, Ev.iceCandidate v none body))⟩ ∧
      (∀ c : String, c ∈ roomMembersExcept st.conns v u ↔
        c ≠ v ∧ ∃ k, lookupConn st.conns c = some k ∧ u ∈ k.rooms)) ∧
    ((getConn st v).uid = none →
      iceCandidate st v ⟨none, body⟩ = ⟨st, Ack.err "No target specified.", []⟩) := by
  constructor
  · intro huid hne
    have htr : truthy (getConn st v).uid = some u := by
      rw [huid]; simp [truthy, hne]
    constructor
    · rw [iceCandidate_no_tgt]
      simp only [htr]
    · intro c
      exact mem_roomMembersExcept hnd
  · intro huid
    have htr : truthy (getConn st v).uid = none := by rw [huid]; rfl
    rw [iceCandidate_no_tgt]
    simp only [htr]

/-- Witness for C7 in `exSt`: the viewer `"v"` broadcasts a candidate to
the rest of room `"A"`, i.e. exactly to the presenter `"p"`. -/
theorem C7_ice_room_broadcast_witness :
    keysNodup exSt ∧
    (((getConn exSt "v").uid = some "A" → ("A" : String) ≠ "" →
      iceCandidate exSt "v" ⟨none, "b"⟩ =
        ⟨exSt, Ack.ok none,
          (roomMembersExcept exSt.conns "v" "A").map
            (fun c => (c, Ev.iceCandidate "v" none "b"))⟩ ∧
      (∀ c : String, c ∈ roomMembersExcept exSt.conns "v" "A" ↔
        c ≠ "v" ∧ ∃ k, lookupConn exSt.conns c = some k ∧ "A" ∈ k.rooms)) ∧
    ((getConn exSt "v").uid = none →
      iceCandidate exSt "v" ⟨none, "b"⟩ =
        ⟨exSt, Ack.err "No target specified.", []⟩)) :=
  ⟨by decide, C7_ice_room_broadcast exSt "v" "A" "b" (by decide)⟩

/-- C10: a successful `admin-end-session` clears only the requesting
presenter's session binding; a viewer connection keeps its bound role and
session id even though it is removed from the room, so a subsequent
targetless ice-candidate from that former viewer is acknowledged ok (not
rejected as unbound) and is delivered to no one. -/
theorem C10_endSession_keeps_viewer_binding (st : ServerState)
    (p v u body : String) (kv : Conn)
    (hrole : (getConn st p).role = Role.admin)
    (huid : (getConn st p).uid = some u)
    (hne : u ≠ "")
    (hvp : v ≠ p)
    (hkv : lookupConn st.conns v = some kv)
    (hkuid : kv.uid = some u) :
    (adminEndSession st p (some u) true).ack = Ack.ok none ∧
    lookupConn (adminEndSession st p (some u) true).state.conns v =
      some ⟨kv.role, kv.uid, removeRoom kv.rooms u⟩ ∧
    (getConn (adminEndSession st p (some u) true).state p).uid = none ∧
    iceCandidate (adminEndSession st p (some u) true).state v ⟨none, body⟩ =
      ⟨(adminEndSession st p (some u) true).state, Ack.ok none, []⟩ := by
  have hcond : (getConn st p).role = Role.admin ∧
      ((truthy (getConn st p).uid).isSome = true) ∧
      (some u : Option String) = (getConn st p).uid :=
    ⟨hrole, by rw [huid]; simp [truthy, hne], huid.symm⟩
  have hstate : (adminEndSession st p (some u) true).state =
      setConn ⟨setInactive st.store u, leaveAll st.conns u⟩ p
        { getConn ⟨setInactive st.store u, leaveAll st.conns u⟩ p with
            uid := none } := by
    simp only [adminEndSession]
    rw [if_pos hcond, huid]
    rfl
  have hack : (adminEndSession st p (some u) true).ack = Ack.ok none := by
    simp only [adminEndSession]
    rw [if_pos hcond, huid]
    rfl
  have hv2 : lookupConn (adminEndSession st p (some u) true).state.conns v =
      some ⟨kv.role, kv.uid, removeRoom kv.rooms u⟩ := by
    rw [hstate]
    show lookupConn (setConnL (leaveAll st.conns u) p _) v = _
    rw [lookupConn_setConnL_ne _ hvp, lookupConn_leaveAll, hkv]
    rfl
  have hfree2 : ∀ pc ∈ (adminEndSession st p (some u) true).state.conns,
      u ∉ pc.2.rooms := by
    rw [hstate]
    intro pc hpc
    rcases mem_setConnL pc hpc with h | h
    · exact mem_leaveAll pc h
    · rw [h]
      show u ∉ ((lookupConn (leaveAll st.conns u) p).getD {}).rooms
      rw [lookupConn_leaveAll]
      cases lookupConn st.conns p with
      | none => simp
      | some k2 => exact not_mem_removeRoom k2.rooms u
  refine ⟨hack, hv2, ?_, ?_⟩
  · unfold getConn
    rw [hstate]
    show ((lookupConn (setConnL (leaveAll st.conns u) p _) p).getD {}).uid = none
    rw [lookupConn_setConnL_self]
    rfl
  · have huid2 : truthy
        (getConn (adminEndSession st p (some u) true).state v).uid = some u := by
      unfold getConn
      rw [hv2]
      show truthy kv.uid = some u
      rw [hkuid]
      simp [truthy, hne]
    rw [iceCandidate_no_tgt]
    simp only [huid2]
    rw [roomMembersExcept_eq_nil v hfree2]
    rfl

/-- Witness for C10 in `exSt`: presenter `"p"` ends session `"A"`; the
viewer `"v"` keeps its (student, `"A"`) binding but has left the room,
and its next targetless ice-candidate is acknowledged ok and delivered
to nobody. -/
theorem C10_endSession_keeps_viewer_binding_witness :
    (getConn exSt "p").role = Role.admin ∧
    (getConn exSt "p").uid = some "A" ∧
    ("v" : String) ≠ "p" ∧
    lookupConn exSt.conns "v" = some ⟨Role.student, some "A", ["A"]⟩ ∧
    ((adminEndSession exSt "p" (some "A") true).ack = Ack.ok none ∧
      lookupConn (adminEndSession exSt "p" (some "A") true).state.conns "v" =
        some ⟨Role.student, some "A", removeRoom ["A"] "A"⟩ ∧
      (getConn (adminEndSession exSt "p" (some "A") true).state "p").uid = none ∧
      iceCandidate (adminEndSession exSt "p" (some "A") true).state "v" ⟨none, "b"⟩ =
        ⟨(adminEndSession exSt "p" (some "A") true).state, Ack.ok none, []⟩) :=
  ⟨by decide, by decide, by decide, by decide,
    C10_endSession_keeps_viewer_binding exSt "p" "v" "A" "b"
      ⟨Role.student, some "A", ["A"]⟩ (by decide) (by decide) (by decide)
      (by decide) (by decide) (by decide)⟩

end Livestream
